import Mathlib

/-!
Verification of the contact-directory data model and birthday-scheduling
algorithm (`address_book.py`): validated fields (Name / Phone / Birthday),
contact records with a set of phone numbers, and the address book with its
upcoming-birthdays query.  Dates are modelled as proleptic-Gregorian
`(year, month, day)` triples with the ordinal arithmetic used by the
Python `datetime.date` type; fallible operations (Python exceptions)
return `Option` / explicit error results.
-/

namespace AddressBook

/-! ## Calendar arithmetic (model of `datetime.date`)

`Birthday.is_leap_year` in the source is the standard Gregorian test and
agrees with `calendar.isleap` used by `datetime`. -/

/-- `Birthday.is_leap_year`: `year % 4 == 0 and (year % 100 != 0 or year % 400 == 0)`. -/
def is_leap_year (year : Nat) : Bool :=
  year % 4 == 0 && (year % 100 != 0 || year % 400 == 0)

/-- Days in a month, as in CPython `datetime._days_in_month`. -/
def daysInMonth (year month : Nat) : Nat :=
  if month = 2 then (if is_leap_year year then 29 else 28)
  else if month = 4 ∨ month = 6 ∨ month = 9 ∨ month = 11 then 30
  else 31

/-- A calendar date `(year, month, day)`, the value carried by a
`datetime.date` object. -/
structure Date where
  year : Nat
  month : Nat
  day : Nat
deriving DecidableEq, Repr

/-- The validity check performed by the `datetime.date` constructor
(`MINYEAR = 1`, `MAXYEAR = 9999`): any `replace` producing an invalid
triple raises `ValueError`. -/
def isValidDate (d : Date) : Bool :=
  1 ≤ d.year && d.year ≤ 9999 &&
  1 ≤ d.month && d.month ≤ 12 &&
  1 ≤ d.day && d.day ≤ daysInMonth d.year d.month

/-- Structural well-formedness used by the ordinal lemmas (no upper year
bound; every `isValidDate` date satisfies it). -/
def dateOk (d : Date) : Bool :=
  1 ≤ d.year && 1 ≤ d.month && d.month ≤ 12 && 1 ≤ d.day && d.day ≤ daysInMonth d.year d.month

/-- Days in all years strictly before `y`, as in CPython `_days_before_year`. -/
def daysBeforeYear (y : Nat) : Nat :=
  365 * (y - 1) + (y - 1) / 4 + (y - 1) / 400 - (y - 1) / 100

/-- Days in the given year preceding month `m`, as in CPython
`_days_before_month` (table plus leap adjustment). -/
def daysBeforeMonth (y m : Nat) : Nat :=
  (if m = 1 then 0 else if m = 2 then 31 else if m = 3 then 59 else if m = 4 then 90
   else if m = 5 then 120 else if m = 6 then 151 else if m = 7 then 181
   else if m = 8 then 212 else if m = 9 then 243 else if m = 10 then 273
   else if m = 11 then 304 else if m = 12 then 334 else 0)
  + (if 2 < m ∧ is_leap_year y then 1 else 0)

/-- `date.toordinal()`: day 1 is January 1 of year 1 (proleptic Gregorian). -/
def toordinal (d : Date) : Nat :=
  daysBeforeYear d.year + daysBeforeMonth d.year d.month + d.day

/-- `date.weekday()`: Monday = 0, ..., Saturday = 5, Sunday = 6.
January 1 of year 1 (ordinal 1) is a Monday. -/
def pyWeekday (d : Date) : Nat :=
  (toordinal d + 6) % 7

/-- Python `date` comparison: lexicographic on `(year, month, day)`. -/
def dateLt (a b : Date) : Bool :=
  a.year < b.year ||
  (a.year == b.year && (a.month < b.month || (a.month == b.month && a.day < b.day)))

/-- `(a - b).days` for two dates (a `timedelta` day count). -/
def dateSub (a b : Date) : Int :=
  (toordinal a : Int) - (toordinal b : Int)

/-- The successor date (adding one day, rolling over months and years). -/
def nextDay (d : Date) : Date :=
  if d.day < daysInMonth d.year d.month then ⟨d.year, d.month, d.day + 1⟩
  else if d.month < 12 then ⟨d.year, d.month + 1, 1⟩
  else ⟨d.year + 1, 1, 1⟩

/-- `d + timedelta(days := n)`. -/
def addDays (d : Date) : Nat → Date
  | 0 => d
  | n + 1 => nextDay (addDays d n)

/-- `date.replace(year := y)`; raises `ValueError` (here: `none`) when the
resulting triple is not a valid date. -/
def replaceYear (d : Date) (y : Nat) : Option Date :=
  if isValidDate ⟨y, d.month, d.day⟩ then some ⟨y, d.month, d.day⟩ else none

/-- `date.replace(year := y, day := dd)`. -/
def replaceYearDay (d : Date) (y dd : Nat) : Option Date :=
  if isValidDate ⟨y, d.month, dd⟩ then some ⟨y, d.month, dd⟩ else none

/-! ## Birthday and the scheduling algorithm -/

/-- `Birthday`: the constructor always stores a parsed `date`, so the
wrapped value is a `Date` (the `value is None` guard in the source is
unreachable for constructed birthdays). -/
structure Birthday where
  value : Date
deriving DecidableEq, Repr

/-- `Birthday.is_29th_february`. -/
def Birthday.is_29th_february (b : Birthday) : Bool :=
  b.value.month == 2 && b.value.day == 29

/-- The weekend shift at the end of `next_congritulation_date`:
Saturday moves 2 days, Sunday 1 day. -/
def weekendShift (d : Date) : Date :=
  if pyWeekday d == 5 then addDays d 2
  else if pyWeekday d == 6 then addDays d 1
  else d

/-- `Birthday.next_congritulation_date`, with the current date passed
explicitly (the source reads `datetime.now().date()`).  A `ValueError`
escaping from `date.replace` is modelled as `none`. -/
def next_congritulation_date (b : Birthday) (today : Date) : Option Date :=
  (if b.is_29th_february && !is_leap_year today.year then
      replaceYearDay b.value today.year 28
   else
      replaceYear b.value today.year).bind fun nb =>
  (if dateLt nb today then
      (if b.is_29th_february && is_leap_year (today.year + 1) then
        replaceYearDay b.value (today.year + 1) 29
      else
        replaceYear nb (today.year + 1))
   else some nb).bind fun nb2 =>
  some (weekendShift nb2)


/-! ## Field values and `Field.__eq__`

A field object wraps either a string (Name, Phone) or a date (Birthday).
`Field.__eq__` evaluates `self.value == other.value` first — reading the
`value` attribute of the other operand — and only then checks
`isinstance(other, type(self))`; on an operand without a `value`
attribute the attribute read raises `AttributeError`. -/

/-- Error kinds raised by the core operations. -/
inductive PyError where
  | validationError
  | keyError
  | attributeError
deriving DecidableEq, Repr

/-- The primitive wrapped by a field: Name/Phone wrap a string, Birthday a date. -/
inductive PyVal where
  | str (s : String)
  | date (d : Date)
deriving DecidableEq, Repr

/-- Python `==` on the wrapped primitives (a `str` never equals a `date`). -/
def pyValEq : PyVal → PyVal → Bool
  | .str a, .str b => a == b
  | .date a, .date b => a == b
  | _, _ => false

/-- The concrete field class of a field object. -/
inductive FieldKind where
  | name
  | phone
  | birthday
deriving DecidableEq, Repr

/-- A constructed field object: its class and its wrapped `value`. -/
structure FieldObj where
  kind : FieldKind
  value : PyVal
deriving DecidableEq, Repr

/-- An arbitrary right operand of `==`: a field object, a raw string, or `None`. -/
inductive PyObj where
  | field (f : FieldObj)
  | str (s : String)
  | pynone
deriving DecidableEq, Repr

/-- Whether the object has a `value` attribute. -/
def hasValueAttr : PyObj → Bool
  | .field _ => true
  | _ => false

/-- Reading the `value` attribute (`AttributeError` when absent). -/
def getValueAttr : PyObj → Option PyVal
  | .field f => some f.value
  | _ => none

/-- The class of the object, when it is a field object. -/
def kindOf : PyObj → Option FieldKind
  | .field f => some f.kind
  | _ => none

/-- `Field.__eq__`: `self.value == other.value and isinstance(other, type(self))`.
The attribute read happens before anything else, so a `value`-less operand
raises `AttributeError` instead of producing `False`. -/
def field_eq (self : FieldObj) (other : PyObj) : Except PyError Bool :=
  match getValueAttr other with
  | none => .error .attributeError
  | some v => .ok (pyValEq self.value v && kindOf other == some self.kind)

/-! ## Phone numbers -/

/-- The code points accepted by Python `str.isdigit`, as inclusive ranges:
the characters of Unicode `Numeric_Type` Decimal or Digit, extracted from
CPython 3.11's Unicode database.  Besides the ASCII digits `'0'`-`'9'`
(48-57) this includes the non-ASCII decimal digits (e.g. Arabic-Indic
1632-1641) and digit characters that are not decimal digits at all, such
as the superscripts `'\u00b2'`/`'\u00b3'` (178-179). -/
def pyDigitRanges : List (Nat × Nat) :=
  [(48, 57), (178, 179), (185, 185), (1632, 1641), (1776, 1785), (1984, 1993), (2406, 2415),
   (2534, 2543), (2662, 2671), (2790, 2799), (2918, 2927), (3046, 3055), (3174, 3183),
   (3302, 3311), (3430, 3439), (3558, 3567), (3664, 3673), (3792, 3801), (3872, 3881),
   (4160, 4169), (4240, 4249), (4969, 4977), (6112, 6121), (6160, 6169), (6470, 6479),
   (6608, 6618), (6784, 6793), (6800, 6809), (6992, 7001), (7088, 7097), (7232, 7241),
   (7248, 7257), (8304, 8304), (8308, 8313), (8320, 8329), (9312, 9320), (9332, 9340),
   (9352, 9360), (9450, 9450), (9461, 9469), (9471, 9471), (10102, 10110), (10112, 10120),
   (10122, 10130), (42528, 42537), (43216, 43225), (43264, 43273), (43472, 43481), (43504, 43513),
   (43600, 43609), (44016, 44025), (65296, 65305), (66720, 66729), (68160, 68163), (68912, 68921),
   (69216, 69224), (69714, 69722), (69734, 69743), (69872, 69881), (69942, 69951), (70096, 70105),
   (70384, 70393), (70736, 70745), (70864, 70873), (71248, 71257), (71360, 71369), (71472, 71481),
   (71904, 71913), (72016, 72025), (72784, 72793), (73040, 73049), (73120, 73129), (92768, 92777),
   (92864, 92873), (93008, 93017), (120782, 120831), (123200, 123209), (123632, 123641),
   (125264, 125273), (127232, 127242), (130032, 130041)]

/-- Python `str.isdigit` on a single character. -/
def pyCharIsDigit (c : Char) : Bool :=
  pyDigitRanges.any fun p => p.1 ≤ c.toNat && c.toNat ≤ p.2

/-- Python `str.isdigit`: nonempty and every character a digit character
(a strict superset of the decimal digits `'0'`-`'9'`). -/
def pyIsdigit (s : String) : Bool :=
  !s.data.isEmpty && s.data.all pyCharIsDigit

/-- The `Phone.__init__` validity condition: `value.isdigit() and len(value) == 10`. -/
def phone_valid (s : String) : Bool :=
  pyIsdigit s && s.length == 10

/-- `Phone(s)`: a field object on success, `ValidationError` otherwise. -/
def mkPhone (s : String) : Except PyError FieldObj :=
  if !pyIsdigit s || s.length ≠ 10 then .error .validationError
  else .ok ⟨.phone, .str s⟩

/-! ## Contact records and phone operations

A record's phone set is a Python `set` of `Phone` objects; `Phone` equality
and hash are by digit string, so the set is modelled as a duplicate-free
list of digit strings.  Each operation returns either the new phone set or
the raised error together with the phone set at the moment of the raise
(Python exceptions do not roll back earlier mutations). -/

/-- `set.add`: inserting an equal element is a no-op. -/
def setAdd (l : List String) (s : String) : List String :=
  if s ∈ l then l else s :: l

/-- A contact record: a name, the phone set, an optional birthday. -/
structure Record where
  name : String
  phones : List String
  birthday : Option Birthday
deriving DecidableEq, Repr

/-- Result of a phone operation: the new phone set, or the raised error
with the phone set as it stood when the exception was raised. -/
inductive PhoneOpResult where
  | ok (phones : List String)
  | err (e : PyError) (phones : List String)
deriving DecidableEq, Repr

/-- `Record.add_phone`: `self.phones.add(Phone(phone))` — `Phone(phone)`
is evaluated (and may raise) before the set is touched. -/
def Record.add_phone (r : Record) (phone : String) : PhoneOpResult :=
  if !phone_valid phone then .err .validationError r.phones
  else .ok (setAdd r.phones phone)

/-- `Record.remove_phone`: construct `Phone(phone)` (ValidationError on bad
format), then `set.remove` (KeyError when absent). -/
def Record.remove_phone (r : Record) (phone : String) : PhoneOpResult :=
  if !phone_valid phone then .err .validationError r.phones
  else if phone ∈ r.phones then .ok (r.phones.erase phone)
  else .err .keyError r.phones

/-- `Record.edit_phone`: validate `old_phone`, check membership
(ValidationError "Old phone number not found"), then
`add(Phone(new_phone))` followed by `remove(old_phone_obj)`. -/
def Record.edit_phone (r : Record) (old_phone new_phone : String) : PhoneOpResult :=
  if !phone_valid old_phone then .err .validationError r.phones
  else if old_phone ∈ r.phones then
    (if !phone_valid new_phone then .err .validationError r.phones
     else .ok ((setAdd r.phones new_phone).erase old_phone))
  else .err .validationError r.phones

/-! ## The address book query -/

/-- `AddressBook.get_upcoming_birthdays`, with `today` passed explicitly.
Records are visited in the dictionary's insertion order; a record without
a birthday is skipped; a `ValueError` escaping the scheduling call aborts
the whole query (`none`). -/
def get_upcoming_birthdays : List Record → Int → Date → Option (List (String × Date))
  | [], _, _ => some []
  | r :: rest, days_ahead, today =>
    match r.birthday with
    | none => get_upcoming_birthdays rest days_ahead today
    | some b =>
      match next_congritulation_date b today with
      | none => none
      | some d =>
        (get_upcoming_birthdays rest days_ahead today).map fun l =>
          if 0 ≤ dateSub d today ∧ dateSub d today < days_ahead then (r.name, d) :: l else l

/-! ## Birthday parsing and formatting

`Birthday.__init__` parses with `datetime.strptime(value, "%d.%m.%Y")`.
`strptime` matches `%d` against 1–2 digits with value 1–31, `%m` against
1–2 digits with value 1–12, `%Y` against exactly four digits, the literal
dots in between, and rejects any leftover input (the regex `\d` also
matches non-ASCII decimal digits, which map to the same numeric values
and hence the same dates; the character class here is the ASCII one); the matched numbers then go
through the `date` constructor, which rejects impossible dates.  A string
is therefore accepted exactly when it splits on `.` into three such digit
groups forming a valid date.  `Birthday.__str__` formats with
`strftime("%d.%m.%Y")`: day and month zero-padded to two digits, the year
printed as a plain decimal number. -/

/-- Numeric value of a digit group (most significant digit first). -/
def digitsVal (l : List Char) : Nat :=
  l.foldl (fun a c => 10 * a + (c.toNat - 48)) 0

/-- The `%d` field: 1–2 digits, value 1–31. -/
def dayFieldOk (l : List Char) : Bool :=
  !l.isEmpty && l.length ≤ 2 && l.all Char.isDigit &&
    1 ≤ digitsVal l && digitsVal l ≤ 31

/-- The `%m` field: 1–2 digits, value 1–12. -/
def monthFieldOk (l : List Char) : Bool :=
  !l.isEmpty && l.length ≤ 2 && l.all Char.isDigit &&
    1 ≤ digitsVal l && digitsVal l ≤ 12

/-- The `%Y` field: exactly four digits (CPython `_strptime` compiles `%Y`
to the regex `\d\d\d\d`; the year range is enforced by the `date`
constructor). -/
def yearFieldOk (l : List Char) : Bool :=
  l.length == 4 && l.all Char.isDigit

/-- `datetime.strptime(s, "%d.%m.%Y").date()`: `none` models the
`ValueError` that `Birthday.__init__` converts to `ValidationError`. -/
def parse_birthday (s : List Char) : Option Date :=
  match s.splitOn '.' with
  | [ds, ms, ys] =>
    if dayFieldOk ds && monthFieldOk ms && yearFieldOk ys then
      if isValidDate ⟨digitsVal ys, digitsVal ms, digitsVal ds⟩ then
        some ⟨digitsVal ys, digitsVal ms, digitsVal ds⟩
      else none
    else none
  | _ => none

/-- `Birthday(s)`. -/
def mkBirthday (s : List Char) : Except PyError Birthday :=
  match parse_birthday s with
  | some dt => .ok ⟨dt⟩
  | none => .error .validationError

/-- A number printed as two digits, zero-padded (`%d`, `%m`). -/
def pad2 (n : Nat) : List Char :=
  if n < 10 then ['0', Nat.digitChar n]
  else [Nat.digitChar (n / 10), Nat.digitChar (n % 10)]

/-- A year (1–9999) printed as a plain decimal number (`%Y`). -/
def natChars (y : Nat) : List Char :=
  if y < 10 then [Nat.digitChar y]
  else if y < 100 then [Nat.digitChar (y / 10), Nat.digitChar (y % 10)]
  else if y < 1000 then
    [Nat.digitChar (y / 100), Nat.digitChar (y / 10 % 10), Nat.digitChar (y % 10)]
  else
    [Nat.digitChar (y / 1000), Nat.digitChar (y / 100 % 10),
     Nat.digitChar (y / 10 % 10), Nat.digitChar (y % 10)]

/-- `Birthday.__str__`: `value.strftime("%d.%m.%Y")`. -/
def format_birthday (d : Date) : List Char :=
  List.intercalate ['.'] [pad2 d.day, pad2 d.month, natChars d.year]

example : is_leap_year 2024 = true := by decide
example : is_leap_year 2025 = false := by decide
example : is_leap_year 1900 = false := by decide
example : is_leap_year 2000 = true := by decide

-- 2024-03-15 was a Friday.
example : pyWeekday ⟨2024, 3, 15⟩ = 4 := by decide
-- 2025-02-28 is a Friday.
example : pyWeekday ⟨2025, 2, 28⟩ = 4 := by decide
-- 2026-02-28 is a Saturday.
example : pyWeekday ⟨2026, 2, 28⟩ = 5 := by decide

-- Spec §8 example: Birthday 15.03.1990 scheduled against 2024-03-20
-- rolls over to 2025-03-15 (a Saturday, hence shifted to Monday 17th).
example :
    next_congritulation_date ⟨⟨1990, 3, 15⟩⟩ ⟨2024, 3, 20⟩ = some ⟨2025, 3, 17⟩ := by
  decide

-- Spec §8 example: Feb-29 birthday against today = 2025-01-01 lands on 2025-02-28.
example :
    next_congritulation_date ⟨⟨2024, 2, 29⟩⟩ ⟨2025, 1, 1⟩ = some ⟨2025, 2, 28⟩ := by
  decide

example : parse_birthday "05.03.1990".data = some ⟨1990, 3, 5⟩ := by decide
example : parse_birthday "5.3.1990".data = some ⟨1990, 3, 5⟩ := by decide
example : parse_birthday "31.04.2000".data = none := by decide
example : parse_birthday "29.02.2023".data = none := by decide
example : parse_birthday "29.02.2024".data = some ⟨2024, 2, 29⟩ := by decide
example : format_birthday ⟨1990, 3, 5⟩ = "05.03.1990".data := by decide
example : parse_birthday (format_birthday ⟨2024, 2, 29⟩) = some ⟨2024, 2, 29⟩ := by decide

example :
    Record.edit_phone ⟨"Alice", ["1234567890"], none⟩ "1234567890" "1234567890" =
      .ok [] := by decide

example : mkPhone "123456789" = .error .validationError := rfl
example : mkPhone "12345678a0" = .error .validationError := rfl
example : (mkPhone "1234567890").isOk = true := by decide

/-! ## Theorems -/

/-- C1: on a Feb-29 birthday whose leap-year candidate has already passed
and whose following year is not leap, `next_congritulation_date` raises
`ValueError` from `date.replace` (modelled as `none`) instead of returning
the Feb-28 substitute date the spec prescribes: with birthday 29.02.2020
and today 2024-12-31 the candidate 2024-02-29 is past, 2025 is not leap,
and `date(2024, 2, 29).replace(year=2025)` is invalid. -/
theorem feb29_rollover_raises :
    next_congritulation_date ⟨⟨2020, 2, 29⟩⟩ ⟨2024, 12, 31⟩ = none ∧
    isValidDate ⟨2025, 2, 28⟩ = true := by decide

/-- C2 counterexample: editing a present phone to the same value does not
leave the set unchanged — `set.add` of the equal element is a no-op and
the subsequent `set.remove` deletes it, so the phone set becomes empty. -/
theorem edit_phone_self_cex :
    Record.edit_phone ⟨"Alice", ["1234567890"], none⟩ "1234567890" "1234567890" =
      .ok [] ∧
    ¬("1234567890" ∈ ([] : List String)) ∧
    ([] : List String).length ≠ ["1234567890"].length := by decide

/-- C2 (amended): `editPhone(s, s)` on a record containing valid `s`
succeeds and removes the number: the resulting phone set is the original
with `s` erased; on a duplicate-free set, membership of `s` is lost and
the size drops by exactly one. -/
theorem edit_phone_self_erases (r : Record) (s : String)
    (hv : phone_valid s = true) (hm : s ∈ r.phones) :
    r.edit_phone s s = .ok (r.phones.erase s) ∧
    (r.phones.Nodup →
      s ∉ r.phones.erase s ∧ (r.phones.erase s).length + 1 = r.phones.length) := by
  constructor
  · unfold Record.edit_phone setAdd
    simp [hv, hm]
  · intro hnd
    refine ⟨fun hc => absurd (hnd.mem_erase_iff.mp hc).1 (by simp), ?_⟩
    have h1 := List.length_erase_of_mem hm
    have h2 : 0 < r.phones.length := List.length_pos.mpr (List.ne_nil_of_mem hm)
    omega

/-- C2 witness: the amended statement at a concrete record. -/
theorem edit_phone_self_erases_witness :
    Record.edit_phone ⟨"Alice", ["1234567890"], none⟩ "1234567890" "1234567890" =
      .ok (["1234567890"].erase "1234567890") ∧
    (["1234567890"].Nodup →
      "1234567890" ∉ ["1234567890"].erase "1234567890" ∧
      (["1234567890"].erase "1234567890").length + 1 = ["1234567890"].length) :=
  edit_phone_self_erases ⟨"Alice", ["1234567890"], none⟩ "1234567890"
    (by decide) (by decide)

/-- `Phone.__init__` expressed through the validity predicate. -/
theorem mkPhone_eq (s : String) :
    mkPhone s = if phone_valid s then .ok ⟨.phone, .str s⟩ else .error .validationError := by
  unfold mkPhone phone_valid
  by_cases h1 : pyIsdigit s <;> by_cases h2 : s.length = 10 <;> simp [h1, h2]

/-- The validity predicate in elementary terms. -/
theorem phone_valid_iff (s : String) :
    phone_valid s = true ↔ (s.length = 10 ∧ ∀ c ∈ s.data, pyCharIsDigit c = true) := by
  unfold phone_valid pyIsdigit
  constructor
  · intro h
    simp only [Bool.and_eq_true, Bool.not_eq_true', List.all_eq_true, beq_iff_eq] at h
    exact ⟨h.2, h.1.2⟩
  · intro h
    have hne : s.data.isEmpty = false := by
      have h10 : s.data.length = 10 := h.1
      cases hd : s.data with
      | nil => rw [hd] at h10; simp at h10
      | cons a l => simp
    simp only [hne, Bool.not_false, List.all_eq_true, Bool.and_eq_true, beq_iff_eq,
      true_and]
    exact ⟨h.2, h.1⟩

/-- C3 counterexample: `str.isdigit` also accepts digit characters that
are not decimal digits, so `Phone` of ten superscript-two characters
succeeds although the string contains no decimal digit. -/
theorem phone_ctor_decimal_cex :
    (mkPhone "²²²²²²²²²²").isOk = true ∧
    "²²²²²²²²²²".length = 10 ∧
    ¬(∀ c ∈ "²²²²²²²²²²".data, c.isDigit = true) := by decide

/-- C3 (amended): `PhoneNumber(s)` succeeds exactly when `s` has length 10
and every character passes Python `str.isdigit` (the Unicode digit
characters, a strict superset of the decimal digits); it fails with
`ValidationError` otherwise, and two successful constructions from the
same string compare equal under `Field.__eq__`. -/
theorem phone_ctor_spec (s : String) :
    ((mkPhone s).isOk = true ↔ (s.length = 10 ∧ ∀ c ∈ s.data, pyCharIsDigit c = true)) ∧
    (¬(s.length = 10 ∧ ∀ c ∈ s.data, pyCharIsDigit c = true) →
      mkPhone s = .error .validationError) ∧
    (∀ p, mkPhone s = .ok p → field_eq p (.field p) = .ok true) := by
  refine ⟨?_, fun hnp => ?_, fun p hp => ?_⟩
  · rw [mkPhone_eq]
    by_cases h : phone_valid s = true
    · simp only [h, if_true, Except.isOk, Except.toBool]
      exact iff_of_true trivial ((phone_valid_iff s).mp h)
    · have hb : phone_valid s = false := by simpa using h
      simp only [hb, Bool.false_eq_true, if_false, Except.isOk, Except.toBool,
        Bool.false_eq_true, false_iff]
      exact fun hc => absurd ((phone_valid_iff s).mpr hc) h
  · cases hvb : phone_valid s with
    | true => exact absurd ((phone_valid_iff s).mp hvb) hnp
    | false => simp [mkPhone_eq, hvb]
  · rw [mkPhone_eq] at hp
    by_cases h : phone_valid s = true
    · rw [h] at hp
      simp only [if_true] at hp
      cases hp
      simp [field_eq, getValueAttr, kindOf, pyValEq]
    · have hb : phone_valid s = false := by simpa using h
      rw [hb] at hp
      simp at hp

/-- C3 witness: a valid construction compares equal to itself, and a
short string is rejected. -/
theorem phone_ctor_spec_witness :
    field_eq ⟨.phone, .str "1234567890"⟩ (.field ⟨.phone, .str "1234567890"⟩) =
      .ok true ∧
    mkPhone "12345" = .error .validationError :=
  ⟨(phone_ctor_spec "1234567890").2.2 ⟨.phone, .str "1234567890"⟩ rfl,
   (phone_ctor_spec "12345").2.1 (by decide)⟩

/-- C6 counterexample: a 10-character string of superscript-two digit
characters is not a valid 10-decimal-digit string, yet it passes the
`Phone` validation (`str.isdigit` accepts it), so `remove_phone` reaches
the membership check and raises `KeyError`, not `ValidationError`. -/
theorem remove_phone_validation_cex :
    ¬(∀ c ∈ "²²²²²²²²²²".data, c.isDigit = true) ∧
    Record.remove_phone ⟨"Bob", ["1234567890"], none⟩ "²²²²²²²²²²" =
      .err .keyError ["1234567890"] := by decide

/-- C6 (amended): `remove_phone` runs the code's format check first — a
string failing `str.isdigit`-and-length-10 raises `ValidationError`
regardless of membership — and a string passing that check but absent
from the set raises `KeyError`, a different error kind. -/
theorem remove_phone_error_spec (r : Record) (s : String) :
    (phone_valid s = false → r.remove_phone s = .err .validationError r.phones) ∧
    (phone_valid s = true → s ∉ r.phones → r.remove_phone s = .err .keyError r.phones) := by
  constructor
  · intro h
    unfold Record.remove_phone
    simp [h]
  · intro h hmem
    unfold Record.remove_phone
    simp [h, hmem]

/-- C6 witness: a malformed string and an absent valid number on a
concrete record. -/
theorem remove_phone_error_spec_witness :
    Record.remove_phone ⟨"Bob", ["1234567890"], none⟩ "12ab" =
      .err .validationError ["1234567890"] ∧
    Record.remove_phone ⟨"Bob", ["1234567890"], none⟩ "0987654321" =
      .err .keyError ["1234567890"] :=
  ⟨(remove_phone_error_spec ⟨"Bob", ["1234567890"], none⟩ "12ab").1 (by decide),
   (remove_phone_error_spec ⟨"Bob", ["1234567890"], none⟩ "0987654321").2
     (by decide) (by decide)⟩

/-- C8: `Field.__eq__` reads `other.value` before the `isinstance` check,
so comparing a field against any operand without a `value` attribute (a
raw string, `None`) raises `AttributeError` instead of returning `False`. -/
theorem field_eq_attribute_error (f : FieldObj) (x : PyObj)
    (h : hasValueAttr x = false) : field_eq f x = .error .attributeError := by
  cases x <;> simp_all [hasValueAttr, field_eq, getValueAttr]

/-- C8 witness: a phone field compared against the equal raw string. -/
theorem field_eq_attribute_error_witness :
    field_eq ⟨.phone, .str "1234567890"⟩ (.str "1234567890") =
      .error .attributeError :=
  field_eq_attribute_error ⟨.phone, .str "1234567890"⟩ (.str "1234567890") rfl

/-- C9: the parser accepts single-digit day and month fields:
`"5.3.1990"` is accepted and denotes the same calendar date as the
zero-padded `"05.03.1990"`. -/
theorem birthday_parse_unpadded :
    parse_birthday "5.3.1990".data = some ⟨1990, 3, 5⟩ ∧
    parse_birthday "05.03.1990".data = some ⟨1990, 3, 5⟩ := by decide

/-- C10: every phone operation is atomic on error — whenever `add_phone`,
`remove_phone` or `edit_phone` raises, the phone set at the moment of the
raise is exactly the phone set before the call (each raise happens before
any mutation of the set). -/
theorem phone_ops_atomic (r : Record) (a b : String) (e : PyError) (l : List String) :
    (r.add_phone a = .err e l → l = r.phones) ∧
    (r.remove_phone a = .err e l → l = r.phones) ∧
    (r.edit_phone a b = .err e l → l = r.phones) := by
  refine ⟨fun h => ?_, fun h => ?_, fun h => ?_⟩
  · unfold Record.add_phone at h
    split at h <;> simp_all
  · unfold Record.remove_phone at h
    split at h <;> [skip; split at h] <;> simp_all
  · unfold Record.edit_phone at h
    split at h <;> [skip; split at h] <;> [skip; split at h; skip] <;> simp_all

/-- C10 witness: an erroring `add_phone` call on a concrete record leaves
the set as it was. -/
theorem phone_ops_atomic_witness :
    ["1234567890"] = (Record.mk "Bob" ["1234567890"] none).phones :=
  (phone_ops_atomic ⟨"Bob", ["1234567890"], none⟩ "12ab" "" .validationError
    ["1234567890"]).1 (by decide)

/-! ### Ordinal arithmetic for the weekend shift -/

theorem daysInMonth_pos (y m : Nat) : 1 ≤ daysInMonth y m := by
  unfold daysInMonth
  split
  · split <;> omega
  · split <;> omega

theorem isValid_dateOk {d : Date} (h : isValidDate d = true) : dateOk d = true := by
  unfold isValidDate at h
  unfold dateOk
  simp only [Bool.and_eq_true, decide_eq_true_eq] at h ⊢
  omega

theorem replaceYear_valid {d : Date} {y : Nat} {d' : Date}
    (h : replaceYear d y = some d') : isValidDate d' = true := by
  unfold replaceYear at h
  split at h
  next hval => rw [← Option.some.inj h]; exact hval
  next => cases h

theorem replaceYearDay_valid {d : Date} {y dd : Nat} {d' : Date}
    (h : replaceYearDay d y dd = some d') : isValidDate d' = true := by
  unfold replaceYearDay at h
  split at h
  next hval => rw [← Option.some.inj h]; exact hval
  next => cases h

theorem daysBeforeMonth_succ (y m : Nat) (h1 : 1 ≤ m) (h2 : m ≤ 11) :
    daysBeforeMonth y (m + 1) = daysBeforeMonth y m + daysInMonth y m := by
  interval_cases m <;> cases hl : is_leap_year y <;>
    simp [daysBeforeMonth, daysInMonth, hl]

theorem daysBeforeMonth_one (y : Nat) : daysBeforeMonth y 1 = 0 := by
  simp [daysBeforeMonth]

theorem daysBeforeMonth_twelve (y : Nat) :
    daysBeforeMonth y 12 = 334 + (if is_leap_year y then 1 else 0) := by
  cases hl : is_leap_year y <;> simp [daysBeforeMonth, hl]

set_option maxHeartbeats 1600000 in
theorem daysBeforeYear_succ (y : Nat) (hy : 1 ≤ y) :
    daysBeforeYear (y + 1) = daysBeforeYear y + 365 + (if is_leap_year y then 1 else 0) := by
  have hiff : is_leap_year y = true ↔ (y % 4 = 0 ∧ (y % 100 ≠ 0 ∨ y % 400 = 0)) := by
    simp [is_leap_year]
  unfold daysBeforeYear
  cases hl : is_leap_year y
  · have hnl : ¬(y % 4 = 0 ∧ (y % 100 ≠ 0 ∨ y % 400 = 0)) := by
      rw [← hiff, hl]; simp
    rw [if_neg (by simp [hl])]
    omega
  · have hlp : y % 4 = 0 ∧ (y % 100 ≠ 0 ∨ y % 400 = 0) := hiff.mp hl
    rw [if_pos (by simp [hl])]
    omega

theorem dateOk_nextDay {d : Date} (h : dateOk d = true) : dateOk (nextDay d) = true := by
  unfold dateOk at h ⊢
  unfold nextDay
  split
  next hlt =>
    simp only [Bool.and_eq_true, decide_eq_true_eq] at h ⊢
    omega
  next hge =>
    split
    next hmlt =>
      have hp := daysInMonth_pos d.year (d.month + 1)
      simp only [Bool.and_eq_true, decide_eq_true_eq] at h ⊢
      omega
    next hmge =>
      have hp := daysInMonth_pos (d.year + 1) 1
      simp only [Bool.and_eq_true, decide_eq_true_eq] at h ⊢
      omega

theorem toordinal_nextDay {d : Date} (h : dateOk d = true) :
    toordinal (nextDay d) = toordinal d + 1 := by
  unfold dateOk at h
  simp only [Bool.and_eq_true, decide_eq_true_eq] at h
  obtain ⟨⟨⟨⟨hy, hm1⟩, hm2⟩, hd1⟩, hd2⟩ := h
  unfold nextDay
  split
  next hlt =>
    unfold toordinal
    dsimp only
    omega
  next hge =>
    have hdeq : d.day = daysInMonth d.year d.month := by omega
    split
    next hmlt =>
      have hsucc := daysBeforeMonth_succ d.year d.month hm1 (by omega)
      unfold toordinal
      dsimp only
      omega
    next hmge =>
      have hm12 : d.month = 12 := by omega
      have hdim : daysInMonth d.year 12 = 31 := by simp [daysInMonth]
      unfold toordinal
      dsimp only
      rw [daysBeforeMonth_one, daysBeforeYear_succ d.year hy, hm12,
        daysBeforeMonth_twelve]
      rw [hm12, hdim] at hdeq
      split <;> omega

theorem dateOk_addDays {d : Date} (h : dateOk d = true) (n : Nat) :
    dateOk (addDays d n) = true := by
  induction n with
  | zero => exact h
  | succ k ih => exact dateOk_nextDay ih

theorem toordinal_addDays {d : Date} (h : dateOk d = true) (n : Nat) :
    toordinal (addDays d n) = toordinal d + n := by
  induction n with
  | zero => rfl
  | succ k ih =>
    have := toordinal_nextDay (dateOk_addDays h k)
    unfold addDays
    omega

theorem weekendShift_weekday {d : Date} (h : dateOk d = true) :
    pyWeekday (weekendShift d) ≠ 5 ∧ pyWeekday (weekendShift d) ≠ 6 := by
  unfold weekendShift
  split
  next h5 =>
    simp only [beq_iff_eq] at h5
    have ht := toordinal_addDays h 2
    unfold pyWeekday at h5 ⊢
    rw [ht]
    omega
  next h5 =>
    split
    next h6 =>
      simp only [beq_iff_eq] at h6
      have ht := toordinal_addDays h 1
      unfold pyWeekday at h6 ⊢
      rw [ht]
      omega
    next h6 =>
      simp only [beq_iff_eq] at h5 h6
      unfold pyWeekday at h5 h6 ⊢
      omega

/-- C5: whenever `next_congritulation_date` returns a date, that date is
neither a Saturday (weekday 5) nor a Sunday (weekday 6): the final
weekend shift moves Saturday forward two days and Sunday one day, both to
a Monday. -/
theorem next_congritulation_weekday (b : Birthday) (today : Date) (d : Date)
    (h : next_congritulation_date b today = some d) :
    pyWeekday d ≠ 5 ∧ pyWeekday d ≠ 6 := by
  unfold next_congritulation_date at h
  rw [Option.bind_eq_some] at h
  obtain ⟨nb, h1, h2⟩ := h
  rw [Option.bind_eq_some] at h2
  obtain ⟨nb2, h3, h4⟩ := h2
  have hd : d = weekendShift nb2 := (Option.some.inj h4).symm
  have hok : dateOk nb2 = true := by
    split at h3
    · split at h3
      · exact isValid_dateOk (replaceYearDay_valid h3)
      · exact isValid_dateOk (replaceYear_valid h3)
    · rw [← Option.some.inj h3]
      split at h1
      · exact isValid_dateOk (replaceYearDay_valid h1)
      · exact isValid_dateOk (replaceYear_valid h1)
  rw [hd]
  exact weekendShift_weekday hok

/-- C5 witness: the spec's worked example, a rolled-over birthday landing
on Saturday 2025-03-15 and shifted to Monday 2025-03-17. -/
theorem next_congritulation_weekday_witness :
    pyWeekday ⟨2025, 3, 17⟩ ≠ 5 ∧ pyWeekday ⟨2025, 3, 17⟩ ≠ 6 :=
  next_congritulation_weekday ⟨⟨1990, 3, 15⟩⟩ ⟨2024, 3, 20⟩ ⟨2025, 3, 17⟩ (by decide)

/-- C4: whenever `get_upcoming_birthdays` returns a list, a pair
`(name, d)` is in it exactly when some record of the book carries that
name, has a non-null birthday scheduled to `d`, and `d` lies in the
half-open window `0 ≤ (d - today).days < days_ahead` — so a celebration
exactly `days_ahead` days out is excluded and one today is included. -/
theorem upcoming_birthdays_membership (book : List Record) (days_ahead : Int)
    (today : Date) (l : List (String × Date))
    (h : get_upcoming_birthdays book days_ahead today = some l)
    (nm : String) (d : Date) :
    (nm, d) ∈ l ↔
      ∃ r ∈ book, r.name = nm ∧ ∃ b, r.birthday = some b ∧
        next_congritulation_date b today = some d ∧
        0 ≤ dateSub d today ∧ dateSub d today < days_ahead := by
  induction book generalizing l with
  | nil =>
    cases h
    simp
  | cons r rest ih =>
    unfold get_upcoming_birthdays at h
    cases hb : r.birthday with
    | none =>
      rw [hb] at h
      dsimp only at h
      rw [ih l h]
      constructor
      · rintro ⟨r', hr', hrest⟩
        exact ⟨r', List.mem_cons_of_mem _ hr', hrest⟩
      · rintro ⟨r', hr', hname, b', hbb, hrest⟩
        rcases List.mem_cons.mp hr' with rfl | hr'
        · rw [hb] at hbb; cases hbb
        · exact ⟨r', hr', hname, b', hbb, hrest⟩
    | some b =>
      rw [hb] at h
      dsimp only at h
      cases hn : next_congritulation_date b today with
      | none => rw [hn] at h; cases h
      | some d' =>
        rw [hn] at h
        cases hrest : get_upcoming_birthdays rest days_ahead today with
        | none => rw [hrest] at h; cases h
        | some l' =>
          rw [hrest] at h
          simp only [Option.map_some'] at h
          have hl : l = if 0 ≤ dateSub d' today ∧ dateSub d' today < days_ahead
              then (r.name, d') :: l' else l' := (Option.some.inj h).symm
          by_cases hcond : 0 ≤ dateSub d' today ∧ dateSub d' today < days_ahead
          · rw [if_pos hcond] at hl
            subst hl
            simp only [List.mem_cons]
            rw [ih l' hrest]
            constructor
            · rintro (heq | ⟨r', hr', hname, b', hbb, hnext, hiv⟩)
              · injection heq with h1 h2
                subst h1; subst h2
                exact ⟨r, Or.inl rfl, rfl, b, hb, hn, hcond⟩
              · exact ⟨r', Or.inr hr', hname, b', hbb, hnext, hiv⟩
            · rintro ⟨r', hr', hname, b', hbb, hnext, hiv⟩
              rcases hr' with rfl | hr'
              · rw [hb] at hbb
                obtain rfl := Option.some.inj hbb
                rw [hn] at hnext
                obtain rfl := Option.some.inj hnext
                subst hname
                exact Or.inl rfl
              · exact Or.inr ⟨r', hr', hname, b', hbb, hnext, hiv⟩
          · rw [if_neg hcond] at hl
            subst hl
            rw [ih l hrest]
            constructor
            · rintro ⟨r', hr', hrest'⟩
              exact ⟨r', List.mem_cons_of_mem _ hr', hrest'⟩
            · rintro ⟨r', hr', hname, b', hbb, hnext, hiv⟩
              rcases List.mem_cons.mp hr' with rfl | hr'
              · rw [hb] at hbb
                obtain rfl := Option.some.inj hbb
                rw [hn] at hnext
                obtain rfl := Option.some.inj hnext
                exact absurd hiv hcond
              · exact ⟨r', hr', hname, b', hbb, hnext, hiv⟩

/-- C4 witness: a one-record book whose birthday lands 5 days out (after
the weekend shift) is listed; instantiating the characterisation at that
record's pair. -/
theorem upcoming_birthdays_membership_witness :
    ("Ann", (⟨2025, 3, 17⟩ : Date)) ∈ [("Ann", (⟨2025, 3, 17⟩ : Date))] ↔
      ∃ r ∈ [Record.mk "Ann" [] (some ⟨⟨1990, 3, 15⟩⟩)], r.name = "Ann" ∧
        ∃ b, r.birthday = some b ∧
          next_congritulation_date b ⟨2025, 3, 12⟩ = some ⟨2025, 3, 17⟩ ∧
          0 ≤ dateSub ⟨2025, 3, 17⟩ ⟨2025, 3, 12⟩ ∧
          dateSub ⟨2025, 3, 17⟩ ⟨2025, 3, 12⟩ < 7 :=
  upcoming_birthdays_membership [⟨"Ann", [], some ⟨⟨1990, 3, 15⟩⟩⟩] 7 ⟨2025, 3, 12⟩
    [("Ann", ⟨2025, 3, 17⟩)] (by decide) "Ann" ⟨2025, 3, 17⟩

/-! ### Round-trip of parsing and formatting -/

theorem daysInMonth_le (y m : Nat) : daysInMonth y m ≤ 31 := by
  unfold daysInMonth
  split
  · split <;> omega
  · split <;> omega

theorem digitChar_toNat {n : Nat} (h : n < 10) : (Nat.digitChar n).toNat = 48 + n := by
  interval_cases n <;> rfl

theorem digitChar_isDigit {n : Nat} (h : n < 10) : (Nat.digitChar n).isDigit = true := by
  interval_cases n <;> decide

theorem pad2_spec (n : Nat) (h : n < 100) :
    (pad2 n).length = 2 ∧ (∀ c ∈ pad2 n, c.isDigit = true) ∧ digitsVal (pad2 n) = n := by
  unfold pad2
  split
  next hlt =>
    refine ⟨rfl, ?_, ?_⟩
    · intro c hc
      rcases List.mem_cons.mp hc with rfl | hc
      · decide
      · rcases List.mem_cons.mp hc with rfl | hc
        · exact digitChar_isDigit hlt
        · cases hc
    · unfold digitsVal
      simp only [List.foldl]
      rw [digitChar_toNat hlt]
      have h0 : ('0' : Char).toNat = 48 := rfl
      rw [h0]
      omega
  next hge =>
    have h1 : n / 10 < 10 := by omega
    have h2 : n % 10 < 10 := by omega
    refine ⟨rfl, ?_, ?_⟩
    · intro c hc
      rcases List.mem_cons.mp hc with rfl | hc
      · exact digitChar_isDigit h1
      · rcases List.mem_cons.mp hc with rfl | hc
        · exact digitChar_isDigit h2
        · cases hc
    · unfold digitsVal
      simp only [List.foldl]
      rw [digitChar_toNat h1, digitChar_toNat h2]
      omega

theorem natChars_spec (y : Nat) (hy : y ≤ 9999) :
    1 ≤ (natChars y).length ∧ (natChars y).length ≤ 4 ∧
    (∀ c ∈ natChars y, c.isDigit = true) ∧ digitsVal (natChars y) = y := by
  unfold natChars
  split
  next hlt =>
    refine ⟨by simp, by simp, ?_, ?_⟩
    · intro c hc
      rcases List.mem_cons.mp hc with rfl | hc
      · exact digitChar_isDigit hlt
      · cases hc
    · unfold digitsVal
      simp only [List.foldl]
      rw [digitChar_toNat hlt]
      omega
  next hge1 =>
    split
    next hlt =>
      have h1 : y / 10 < 10 := by omega
      have h2 : y % 10 < 10 := by omega
      refine ⟨by simp, by simp, ?_, ?_⟩
      · intro c hc
        rcases List.mem_cons.mp hc with rfl | hc
        · exact digitChar_isDigit h1
        · rcases List.mem_cons.mp hc with rfl | hc
          · exact digitChar_isDigit h2
          · cases hc
      · unfold digitsVal
        simp only [List.foldl]
        rw [digitChar_toNat h1, digitChar_toNat h2]
        omega
    next hge2 =>
      split
      next hlt =>
        have h1 : y / 100 < 10 := by omega
        have h2 : y / 10 % 10 < 10 := by omega
        have h3 : y % 10 < 10 := by omega
        refine ⟨by simp, by simp, ?_, ?_⟩
        · intro c hc
          rcases List.mem_cons.mp hc with rfl | hc
          · exact digitChar_isDigit h1
          · rcases List.mem_cons.mp hc with rfl | hc
            · exact digitChar_isDigit h2
            · rcases List.mem_cons.mp hc with rfl | hc
              · exact digitChar_isDigit h3
              · cases hc
        · unfold digitsVal
          simp only [List.foldl]
          rw [digitChar_toNat h1, digitChar_toNat h2, digitChar_toNat h3]
          omega
      next hge3 =>
        have h1 : y / 1000 < 10 := by omega
        have h2 : y / 100 % 10 < 10 := by omega
        have h3 : y / 10 % 10 < 10 := by omega
        have h4 : y % 10 < 10 := by omega
        refine ⟨by simp, by simp, ?_, ?_⟩
        · intro c hc
          rcases List.mem_cons.mp hc with rfl | hc
          · exact digitChar_isDigit h1
          · rcases List.mem_cons.mp hc with rfl | hc
            · exact digitChar_isDigit h2
            · rcases List.mem_cons.mp hc with rfl | hc
              · exact digitChar_isDigit h3
              · rcases List.mem_cons.mp hc with rfl | hc
                · exact digitChar_isDigit h4
                · cases hc
        · unfold digitsVal
          simp only [List.foldl]
          rw [digitChar_toNat h1, digitChar_toNat h2, digitChar_toNat h3,
            digitChar_toNat h4]
          omega

theorem not_isEmpty_of_length_pos {l : List Char} (h : 1 ≤ l.length) :
    l.isEmpty = false := by
  cases l with
  | nil => simp at h
  | cons a t => simp

theorem dot_not_mem_of_digits {l : List Char}
    (h : ∀ c ∈ l, c.isDigit = true) : '.' ∉ l := fun hm => by
  have := h '.' hm
  simp [Char.isDigit] at this

theorem parse_birthday_valid {s : List Char} {dt : Date}
    (h : parse_birthday s = some dt) : isValidDate dt = true := by
  unfold parse_birthday at h
  split at h
  · split at h
    · split at h
      next hval => rw [← Option.some.inj h]; exact hval
      next => cases h
    · cases h
  · cases h

theorem natChars_length_four (y : Nat) (h1 : 1000 ≤ y) :
    (natChars y).length = 4 := by
  unfold natChars
  rw [if_neg (by omega), if_neg (by omega), if_neg (by omega)]
  rfl

theorem parse_format_roundtrip {dt : Date} (h : isValidDate dt = true)
    (hy : 1000 ≤ dt.year) :
    parse_birthday (format_birthday dt) = some dt := by
  have hb : 1 ≤ dt.year ∧ dt.year ≤ 9999 ∧ 1 ≤ dt.month ∧ dt.month ≤ 12 ∧
      1 ≤ dt.day ∧ dt.day ≤ 31 := by
    have hle := daysInMonth_le dt.year dt.month
    unfold isValidDate at h
    simp only [Bool.and_eq_true, decide_eq_true_eq] at h
    omega
  obtain ⟨hy1, hy2, hm1, hm2, hd1, hd2⟩ := hb
  obtain ⟨hdl, hdd, hdv⟩ := pad2_spec dt.day (by omega)
  obtain ⟨hml, hmd, hmv⟩ := pad2_spec dt.month (by omega)
  obtain ⟨hyl1, hyl2, hyd, hyv⟩ := natChars_spec dt.year hy2
  have hsplit : (format_birthday dt).splitOn '.' =
      [pad2 dt.day, pad2 dt.month, natChars dt.year] := by
    unfold format_birthday
    refine List.splitOn_intercalate _ '.' ?_ (by simp)
    intro l hl
    rcases List.mem_cons.mp hl with rfl | hl
    · exact dot_not_mem_of_digits hdd
    · rcases List.mem_cons.mp hl with rfl | hl
      · exact dot_not_mem_of_digits hmd
      · rcases List.mem_cons.mp hl with rfl | hl
        · exact dot_not_mem_of_digits hyd
        · cases hl
  unfold parse_birthday
  rw [hsplit]
  dsimp only
  have hday : dayFieldOk (pad2 dt.day) = true := by
    unfold dayFieldOk
    rw [not_isEmpty_of_length_pos (by omega), hdl, hdv,
      List.all_eq_true.mpr hdd]
    simp only [Bool.not_false, Bool.true_and, Bool.and_true]
    simp [hd1, hd2]
  have hmonth : monthFieldOk (pad2 dt.month) = true := by
    unfold monthFieldOk
    rw [not_isEmpty_of_length_pos (by omega), hml, hmv,
      List.all_eq_true.mpr hmd]
    simp only [Bool.not_false, Bool.true_and, Bool.and_true]
    simp [hm1, hm2]
  have hyear : yearFieldOk (natChars dt.year) = true := by
    unfold yearFieldOk
    rw [natChars_length_four dt.year hy, List.all_eq_true.mpr hyd]
    rfl
  rw [hday, hmonth, hyear]
  simp only [Bool.and_self, if_true]
  rw [hdv, hmv, hyv]
  rw [if_pos h]

/-- C7 counterexample: `Birthday("15.03.0090")` constructs (four-digit
year field `0090`), but `strftime("%Y")` prints year 90 without padding,
giving `"15.03.90"`, whose two-digit year the four-digit `%Y` pattern
rejects — the round trip fails with `ValidationError`. -/
theorem birthday_roundtrip_cex :
    mkBirthday "15.03.0090".data = .ok ⟨⟨90, 3, 15⟩⟩ ∧
    format_birthday (⟨90, 3, 15⟩ : Date) = "15.03.90".data ∧
    mkBirthday "15.03.90".data = .error .validationError :=
  ⟨rfl, by decide, rfl⟩

/-- C7 (amended): a successfully constructed Birthday whose year is at
least 1000, formatted back with `strftime("%d.%m.%Y")` and reparsed,
yields an equal Birthday value (for smaller years the unpadded `%Y`
output has fewer than four digits and does not reparse). -/
theorem birthday_roundtrip (b : Birthday)
    (hv : isValidDate b.value = true) (hy : 1000 ≤ b.value.year) :
    mkBirthday (format_birthday b.value) = .ok b := by
  unfold mkBirthday
  rw [parse_format_roundtrip hv hy]

/-- C7 witness: the round trip at the concrete birthday 05.03.1990. -/
theorem birthday_roundtrip_witness :
    mkBirthday (format_birthday (Birthday.mk ⟨1990, 3, 5⟩).value) =
      .ok ⟨⟨1990, 3, 5⟩⟩ :=
  birthday_roundtrip ⟨⟨1990, 3, 5⟩⟩ (by decide) (by decide)

end AddressBook
